import Mathlib

/-!
Verification of the NovaScript compiler (compiler.py): a shallow embedding of
the lexer, the recursive-descent parser and the visitor code generator, with
theorems checking the specification's claims about them.

Modelling conventions:
* Python exceptions become the `Except CErr` monad; the orchestrator's
  `except Exception` boundary becomes the `match` in `compile`.
* The lexer's cursor (`self.pos` into `self.source`) is represented by the
  list `rest` of not-yet-consumed characters (`self.source[self.pos:]`);
  `self.current_char` is its head.  Loops over the cursor become structural
  recursion over `rest`.
* The parser's recursion is bounded by explicit fuel; running out of fuel is
  the analogue of Python's RecursionError, which the orchestrator also
  catches.  `parserFuel` is generous enough for every terminating parse.
* Python's str.isspace / isdigit / isalpha are modelled on their ASCII
  fragment, which is all the language's grammar and the spec exercise.
* Python floats appear only as `float(lexeme)` followed by `str(...)`, with
  no arithmetic in between, so number values are modelled exactly as decimal
  mantissa/exponent pairs; `pyFloatStr` reproduces `str(float(lexeme))` for
  lexemes in the exactly-representable range the language uses.
-/

/-- Token kinds, mirroring the `TokenType` enum (same member order). -/
inductive TokenType where
  | PROGRAM | BEGIN | END | FUNC | RETURN | IF | THEN | ELSE | WHILE | FOR
  | DO | IN | CLASS | TRY | EXCEPT | USE | DISPLAY
  | NUM | STR | BOOL | LIST
  | NUMBER | STRING | TRUE | FALSE
  | PLUS | MINUS | MULTIPLY | DIVIDE | ASSIGN | EQUALS | NOT_EQUALS
  | GREATER | LESS | GREATER_EQUAL | LESS_EQUAL
  | LPAREN | RPAREN | LBRACKET | RBRACKET | COMMA | DOT | COLON
  | IDENTIFIER | COMMENT | EOF
deriving DecidableEq

/-- `str(TokenType.X)` gives "TokenType.X"; this is the member name part. -/
def ttName : TokenType → String
  | .PROGRAM => "PROGRAM" | .BEGIN => "BEGIN" | .END => "END" | .FUNC => "FUNC"
  | .RETURN => "RETURN" | .IF => "IF" | .THEN => "THEN" | .ELSE => "ELSE"
  | .WHILE => "WHILE" | .FOR => "FOR" | .DO => "DO" | .IN => "IN"
  | .CLASS => "CLASS" | .TRY => "TRY" | .EXCEPT => "EXCEPT" | .USE => "USE"
  | .DISPLAY => "DISPLAY" | .NUM => "NUM" | .STR => "STR" | .BOOL => "BOOL"
  | .LIST => "LIST" | .NUMBER => "NUMBER" | .STRING => "STRING"
  | .TRUE => "TRUE" | .FALSE => "FALSE" | .PLUS => "PLUS" | .MINUS => "MINUS"
  | .MULTIPLY => "MULTIPLY" | .DIVIDE => "DIVIDE" | .ASSIGN => "ASSIGN"
  | .EQUALS => "EQUALS" | .NOT_EQUALS => "NOT_EQUALS" | .GREATER => "GREATER"
  | .LESS => "LESS" | .GREATER_EQUAL => "GREATER_EQUAL"
  | .LESS_EQUAL => "LESS_EQUAL" | .LPAREN => "LPAREN" | .RPAREN => "RPAREN"
  | .LBRACKET => "LBRACKET" | .RBRACKET => "RBRACKET" | .COMMA => "COMMA"
  | .DOT => "DOT" | .COLON => "COLON" | .IDENTIFIER => "IDENTIFIER"
  | .COMMENT => "COMMENT" | .EOF => "EOF"

/-- `str(TokenType.X)` as used in the parser's f-string error messages. -/
def ttStr (t : TokenType) : String := "TokenType." ++ ttName t

/-- The enum's auto() value (member position, 1-based), used by `repr`. -/
def ttNum : TokenType → Nat
  | .PROGRAM => 1 | .BEGIN => 2 | .END => 3 | .FUNC => 4 | .RETURN => 5
  | .IF => 6 | .THEN => 7 | .ELSE => 8 | .WHILE => 9 | .FOR => 10
  | .DO => 11 | .IN => 12 | .CLASS => 13 | .TRY => 14 | .EXCEPT => 15
  | .USE => 16 | .DISPLAY => 17 | .NUM => 18 | .STR => 19 | .BOOL => 20
  | .LIST => 21 | .NUMBER => 22 | .STRING => 23 | .TRUE => 24 | .FALSE => 25
  | .PLUS => 26 | .MINUS => 27 | .MULTIPLY => 28 | .DIVIDE => 29
  | .ASSIGN => 30 | .EQUALS => 31 | .NOT_EQUALS => 32 | .GREATER => 33
  | .LESS => 34 | .GREATER_EQUAL => 35 | .LESS_EQUAL => 36 | .LPAREN => 37
  | .RPAREN => 38 | .LBRACKET => 39 | .RBRACKET => 40 | .COMMA => 41
  | .DOT => 42 | .COLON => 43 | .IDENTIFIER => 44 | .COMMENT => 45
  | .EOF => 46

/-- `repr(TokenType.X)`, which is what `str(KeyError(TokenType.X))` prints. -/
def ttRepr (t : TokenType) : String :=
  "<TokenType." ++ ttName t ++ ": " ++ Nat.repr (ttNum t) ++ ">"

/-- A token: kind, matched lexeme, 1-based line and column (class Token). -/
structure Token where
  type : TokenType
  value : String
  line : Nat
  column : Nat
deriving DecidableEq

/-- Every failure any stage can raise; the orchestrator turns these into the
"Compilation error: " string via `errMsg` (= Python's `str(e)`).
`recursionErr` models Python's RecursionError for unbounded parser
recursion, also caught by the orchestrator's bare `except Exception`. -/
inductive CErr where
  | lexErr (c : Char) (line column : Nat)
  | parseErr (msg : String) (line column : Nat)
  | valueErr (lexeme : String)
  | keyError (op : TokenType)
  | recursionErr
deriving DecidableEq

/-- Lexer state: `rest` is `self.source[self.pos:]` (so `self.current_char`
is `rest.head?`), plus the 1-based `self.line` and `self.column`. -/
structure LexState where
  rest : List Char
  line : Nat
  col : Nat
deriving DecidableEq

/-- `self.advance()`: consume one character, bump the column. -/
def advance (st : LexState) : LexState :=
  { st with rest := st.rest.drop 1, col := st.col + 1 }

/-- ASCII fragment of Python's `str.isspace()`. -/
def pyIsSpace (c : Char) : Bool :=
  c = ' ' ∨ c = '\t' ∨ c = '\n' ∨ c = '\r' ∨ c = '\x0b' ∨ c = '\x0c'

/-- ASCII fragment of Python's `str.isdigit()`. -/
def pyIsDigit (c : Char) : Bool := c.isDigit

/-- ASCII fragment of Python's `str.isalpha()`. -/
def pyIsAlpha (c : Char) : Bool := c.isAlpha

/-- ASCII fragment of Python's `str.isalnum()`. -/
def pyIsAlnum (c : Char) : Bool := c.isAlpha ∨ c.isDigit

/-- Loop of `skip_whitespace`: on a newline the line is bumped and the column
set to 0, after which `advance` makes it 1. -/
def skipWsAux : List Char → Nat → Nat → LexState
  | [], line, col => ⟨[], line, col⟩
  | c :: rs, line, col =>
    if pyIsSpace c then
      if c = '\n' then skipWsAux rs (line + 1) 1 else skipWsAux rs line (col + 1)
    else ⟨c :: rs, line, col⟩

/-- `Lexer.skip_whitespace`. -/
def skipWhitespace (st : LexState) : LexState :=
  skipWsAux st.rest st.line st.col

/-- Loop of `read_number`: consume a maximal run of digits and dots. -/
def readNumberAux : List Char → Nat → List Char → List Char × List Char × Nat
  | [], col, acc => (acc, [], col)
  | c :: rs, col, acc =>
    if pyIsDigit c ∨ c = '.' then readNumberAux rs (col + 1) (acc ++ [c])
    else (acc, c :: rs, col)

/-- `Lexer.read_number`. -/
def readNumber (st : LexState) : Token × LexState :=
  let startCol := st.col
  let r := readNumberAux st.rest st.col []
  (⟨.NUMBER, ⟨r.1⟩, st.line, startCol⟩, ⟨r.2.1, st.line, r.2.2⟩)

/-- The `self.keywords` table; anything else is an IDENTIFIER (dict.get
default). -/
def keywordLookup : String → TokenType
  | "PROGRAM" => .PROGRAM | "BEGIN" => .BEGIN | "END" => .END
  | "func" => .FUNC | "return" => .RETURN | "if" => .IF | "then" => .THEN
  | "else" => .ELSE | "while" => .WHILE | "for" => .FOR | "do" => .DO
  | "in" => .IN | "class" => .CLASS | "try" => .TRY | "except" => .EXCEPT
  | "use" => .USE | "display" => .DISPLAY | "num" => .NUM | "str" => .STR
  | "bool" => .BOOL | "list" => .LIST | "true" => .TRUE | "false" => .FALSE
  | _ => .IDENTIFIER

/-- Loop of `read_identifier`: maximal run of alphanumerics and '_'. -/
def readIdentAux : List Char → Nat → List Char → List Char × List Char × Nat
  | [], col, acc => (acc, [], col)
  | c :: rs, col, acc =>
    if pyIsAlnum c ∨ c = '_' then readIdentAux rs (col + 1) (acc ++ [c])
    else (acc, c :: rs, col)

/-- `Lexer.read_identifier`. -/
def readIdentifier (st : LexState) : Token × LexState :=
  let startCol := st.col
  let r := readIdentAux st.rest st.col []
  let s : String := ⟨r.1⟩
  (⟨keywordLookup s, s, st.line, startCol⟩, ⟨r.2.1, st.line, r.2.2⟩)

/-- Loop of `read_string`: consume until a closing quote or end of input
(no escape handling; the line counter is never bumped, as in the source). -/
def readStringAux : List Char → Nat → List Char → List Char × List Char × Nat
  | [], col, acc => (acc, [], col)
  | c :: rs, col, acc =>
    if c ≠ '"' then readStringAux rs (col + 1) (acc ++ [c])
    else (acc, c :: rs, col)

/-- `Lexer.read_string`: skip the opening quote, consume to a quote or EOF,
skip the closing quote when present. -/
def readString (st : LexState) : Token × LexState :=
  let startCol := st.col
  let st1 := advance st
  let r := readStringAux st1.rest st1.col []
  let after : List Char × Nat :=
    match r.2.1 with
    | '"' :: rs => (rs, r.2.2 + 1)
    | other => (other, r.2.2)
  (⟨.STRING, ⟨r.1⟩, st.line, startCol⟩, ⟨after.1, st.line, after.2⟩)

/-- Loop of the line-comment branch of `read_comment` ('#' to end of line,
the '#' included in the lexeme). -/
def lineCommentAux : List Char → Nat → List Char → List Char × List Char × Nat
  | [], col, acc => (acc, [], col)
  | c :: rs, col, acc =>
    if c ≠ '\n' then lineCommentAux rs (col + 1) (acc ++ [c])
    else (acc, c :: rs, col)

/-- Loop of the block-comment branch of `read_comment`: stop after a "*/",
or consume to end of input; newlines bump the line counter (column becomes
0 then 1 after the advance). Returns (lexeme, rest, line, column). -/
def blockCommentAux :
    List Char → Nat → Nat → List Char → List Char × List Char × Nat × Nat
  | [], line, col, acc => (acc, [], line, col)
  | c :: rs, line, col, acc =>
    if c = '*' ∧ rs.head? = some '/' then (acc, rs.drop 1, line, col + 2)
    else if c = '\n' then blockCommentAux rs (line + 1) 1 (acc ++ [c])
    else blockCommentAux rs line (col + 1) (acc ++ [c])

/-- `Lexer.read_comment`: '#' line comments, then "/*" block comments,
otherwise None. -/
def readComment (st : LexState) : Option (Token × LexState) :=
  match st.rest with
  | '#' :: _ =>
    let startCol := st.col
    let r := lineCommentAux st.rest st.col []
    some (⟨.COMMENT, ⟨r.1⟩, st.line, startCol⟩, ⟨r.2.1, st.line, r.2.2⟩)
  | '/' :: '*' :: rs =>
    let startCol := st.col
    let r := blockCommentAux rs st.line (st.col + 2) []
    some (⟨.COMMENT, ⟨r.1⟩, r.2.2.1, startCol⟩, ⟨r.2.1, r.2.2.1, r.2.2.2⟩)
  | _ => none

/-- A single-character operator/punctuation token at the current position. -/
def charToken (tt : TokenType) (c : Char) (st : LexState) : Token × LexState :=
  (⟨tt, String.singleton c, st.line, st.col⟩, advance st)

/-- `Lexer.get_next_token`.  The Python loop's whitespace branch runs
`skip_whitespace` and re-enters the loop; since `skip_whitespace` leaves the
cursor on a non-whitespace character or at end of input, this equals
skipping whitespace once up front and dispatching on the next character.
The dispatch order (comments, digits, identifiers, strings, operators,
invalid character) is the source's. -/
def getNextToken (st0 : LexState) : Except CErr (Token × LexState) :=
  let st := skipWhitespace st0
  match st.rest with
  | [] => .ok (⟨.EOF, "", st.line, st.col⟩, st)
  | c :: _ =>
    match readComment st with
    | some r => .ok r
    | none =>
      if pyIsDigit c then .ok (readNumber st)
      else if pyIsAlpha c ∨ c = '_' then .ok (readIdentifier st)
      else if c = '"' then .ok (readString st)
      else if c = '+' then .ok (charToken .PLUS c st)
      else if c = '-' then .ok (charToken .MINUS c st)
      else if c = '*' then .ok (charToken .MULTIPLY c st)
      else if c = '/' then .ok (charToken .DIVIDE c st)
      else if c = '=' then
        let startCol := st.col
        let st1 := advance st
        match st1.rest with
        | '=' :: _ => .ok (⟨.EQUALS, "==", st1.line, startCol⟩, advance st1)
        | _ => .ok (⟨.ASSIGN, "=", st1.line, startCol⟩, st1)
      else if c = '(' then .ok (charToken .LPAREN c st)
      else if c = ')' then .ok (charToken .RPAREN c st)
      else if c = '[' then .ok (charToken .LBRACKET c st)
      else if c = ']' then .ok (charToken .RBRACKET c st)
      else if c = ',' then .ok (charToken .COMMA c st)
      else if c = '.' then .ok (charToken .DOT c st)
      else if c = ':' then .ok (charToken .COLON c st)
      else .error (.lexErr c st.line st.col)

/-- `Lexer.__init__`: cursor at the start, line 1, column 1. -/
def lexerInit (src : String) : LexState := ⟨src.data, 1, 1⟩

/-!
Number values.  The compiler applies exactly `float(lexeme)` at parse time
and `str(value)` at generation time, with no arithmetic in between, so the
value is modelled exactly as a non-negative decimal `mant / 10 ^ exp`
normalised to its shortest form; `pyFloatStr` is `str(float(lexeme))` for
lexemes whose value is exactly representable (all the spec exercises).
-/

/-- A parsed number literal value: `mant / 10 ^ exp`, kept normalised. -/
structure PyFloat where
  mant : Nat
  exp : Nat
deriving DecidableEq

/-- Strip trailing zero decimal digits, the way float repr normalises
"2.50" to "2.5". -/
def normFloat : Nat → Nat → PyFloat
  | m, 0 => ⟨m, 0⟩
  | m, e + 1 => if m % 10 = 0 then normFloat (m / 10) e else ⟨m, e + 1⟩

/-- Value of a list of ASCII digits. -/
def digitsToNat (l : List Char) : Nat :=
  l.foldl (fun a c => a * 10 + (c.toNat - 48)) 0

/-- All characters are ASCII digits. -/
def allDigits (l : List Char) : Bool := l.all pyIsDigit

/-- `float(lexeme)` for the lexemes `read_number` can produce (digits and
dots): at most one dot and at least one digit, else ValueError (none). -/
def pyFloatOfLexeme (l : List Char) : Option PyFloat :=
  match l.splitOn '.' with
  | [d] => if allDigits d ∧ d ≠ [] then some (normFloat (digitsToNat d) 0) else none
  | [a, b] =>
    if allDigits a ∧ allDigits b ∧ (a ≠ [] ∨ b ≠ []) then
      some (normFloat (digitsToNat (a ++ b)) b.length)
    else none
  | _ => none

/-- Left-pad a digit string with zeros to the given width. -/
def padZeros (s : String) (w : Nat) : String :=
  ⟨List.replicate (w - s.length) '0'⟩ ++ s

/-- `str(value)` for a float holding a normalised decimal: "2.0" for whole
numbers, otherwise the decimal expansion. -/
def pyFloatStr (f : PyFloat) : String :=
  if f.exp = 0 then Nat.repr f.mant ++ ".0"
  else
    Nat.repr (f.mant / 10 ^ f.exp) ++ "." ++
      padZeros (Nat.repr (f.mant % 10 ^ f.exp)) f.exp

/-- AST node kinds, one constructor per dataclass of the source.  Statements
and expressions share one type because the Python classes are dispatched
dynamically by the generator. -/
inductive ASTNode where
  | program (description author date : Option String) (body : List ASTNode)
  | functionDecl (name : String) (params : List (String × Option String))
      (returnType : Option String) (body : List ASTNode)
  | variableDecl (name : String) (vtype : Option String) (value : ASTNode)
  | assignment (target : String) (value : ASTNode)
  | binaryOp (left : ASTNode) (operator : TokenType) (right : ASTNode)
  | number (value : PyFloat)
  | stringLit (value : String)
  | boolean (value : Bool)
  | identifier (name : String)
  | display (value : ASTNode)

/-- Parser state: the lexer cursor plus `self.current_token` (one-token
lookahead buffer). -/
structure ParserState where
  lexer : LexState
  tok : Token

/-- `Parser.error`: message decorated with the current token's position. -/
def parseFail (msg : String) (ps : ParserState) : CErr :=
  .parseErr msg ps.tok.line ps.tok.column

/-- `Parser.eat`: check the current token's kind, then pull the next token
from the lexer. -/
def eat (tt : TokenType) (ps : ParserState) : Except CErr ParserState :=
  if ps.tok.type = tt then
    match getNextToken ps.lexer with
    | .ok r => .ok ⟨r.2, r.1⟩
    | .error e => .error e
  else
    .error (parseFail ("Expected " ++ ttStr tt ++ ", got " ++ ttStr ps.tok.type) ps)

/-- `Parser.__init__`: prime the one-token buffer. -/
def parserInit (lx : LexState) : Except CErr ParserState :=
  match getNextToken lx with
  | .ok r => .ok ⟨r.2, r.1⟩
  | .error e => .error e

/-- Python str.upper (ASCII fragment), used on metadata keys. -/
def pyUpper (s : String) : String := s.toUpper

/-- The parameter loop of `parse_function`: runs until RPAREN; each round
reads a name, an optional ": type", and eats a comma when one is present
(a comma is not required between parameters). -/
def paramsLoop : Nat → List (String × Option String) → ParserState →
    Except CErr (List (String × Option String) × ParserState)
  | 0, _, _ => .error .recursionErr
  | f + 1, acc, ps =>
    if ps.tok.type ≠ .RPAREN then
      match eat .IDENTIFIER ps with
      | .error e => .error e
      | .ok ps1 =>
        match
          (if ps1.tok.type = .COLON then
            match eat .COLON ps1 with
            | .error e => .error e
            | .ok ps2 =>
              match eat .IDENTIFIER ps2 with
              | .error e => .error e
              | .ok ps3 => .ok (some ps2.tok.value, ps3)
          else .ok ((none : Option String), ps1) :
            Except CErr (Option String × ParserState))
        with
        | .error e => .error e
        | .ok (ptype, ps4) =>
          match
            (if ps4.tok.type = .COMMA then eat .COMMA ps4 else .ok ps4 :
              Except CErr ParserState)
          with
          | .error e => .error e
          | .ok ps5 => paramsLoop f (acc ++ [(ps.tok.value, ptype)]) ps5
    else .ok (acc, ps)

mutual

/-- `Parser.parse_statement`: comments yield None; otherwise dispatch on
the statement head, or fail with "Unexpected token". -/
def parseStatement : Nat → ParserState → Except CErr (Option ASTNode × ParserState)
  | 0, _ => .error .recursionErr
  | f + 1, ps =>
    if ps.tok.type = .COMMENT then
      match eat .COMMENT ps with
      | .error e => .error e
      | .ok ps1 => .ok (none, ps1)
    else if ps.tok.type = .FUNC then
      match parseFunction f ps with
      | .error e => .error e
      | .ok r => .ok (some r.1, r.2)
    else if ps.tok.type = .NUM ∨ ps.tok.type = .STR ∨ ps.tok.type = .BOOL ∨
        ps.tok.type = .LIST then
      match parseVariableDeclaration f ps with
      | .error e => .error e
      | .ok r => .ok (some r.1, r.2)
    else if ps.tok.type = .IDENTIFIER then
      match parseAssignment f ps with
      | .error e => .error e
      | .ok r => .ok (some r.1, r.2)
    else if ps.tok.type = .DISPLAY then
      match parseDisplay f ps with
      | .error e => .error e
      | .ok r => .ok (some r.1, r.2)
    else .error (parseFail ("Unexpected token " ++ ttStr ps.tok.type) ps)

/-- The body loop of `parse_function`: runs until END with no EOF check
(at EOF, `parse_statement` fails with "Unexpected token TokenType.EOF"). -/
def funcBodyLoop : Nat → List ASTNode → ParserState →
    Except CErr (List ASTNode × ParserState)
  | 0, _, _ => .error .recursionErr
  | f + 1, acc, ps =>
    if ps.tok.type ≠ .END then
      match parseStatement f ps with
      | .error e => .error e
      | .ok (some s, ps1) => funcBodyLoop f (acc ++ [s]) ps1
      | .ok (none, ps1) => funcBodyLoop f acc ps1
    else .ok (acc, ps)

/-- `Parser.parse_function`. -/
def parseFunction : Nat → ParserState → Except CErr (ASTNode × ParserState)
  | 0, _ => .error .recursionErr
  | f + 1, ps =>
    match eat .FUNC ps with
    | .error e => .error e
    | .ok ps1 =>
      match eat .IDENTIFIER ps1 with
      | .error e => .error e
      | .ok ps2 =>
        match eat .LPAREN ps2 with
        | .error e => .error e
        | .ok ps3 =>
          match paramsLoop f [] ps3 with
          | .error e => .error e
          | .ok (params, ps4) =>
            match eat .RPAREN ps4 with
            | .error e => .error e
            | .ok ps5 =>
              match
                (if ps5.tok.type = .RETURN then
                  match eat .RETURN ps5 with
                  | .error e => .error e
                  | .ok ps6 =>
                    match eat .IDENTIFIER ps6 with
                    | .error e => .error e
                    | .ok ps7 => .ok (some ps6.tok.value, ps7)
                else .ok ((none : Option String), ps5) :
                  Except CErr (Option String × ParserState))
              with
              | .error e => .error e
              | .ok (returnType, ps8) =>
                match funcBodyLoop f [] ps8 with
                | .error e => .error e
                | .ok (body, ps9) =>
                  match eat .END ps9 with
                  | .error e => .error e
                  | .ok ps10 =>
                    .ok (.functionDecl ps1.tok.value params returnType body, ps10)

/-- `Parser.parse_variable_declaration`: the declared type keyword is eaten
via its own kind and becomes the node's type string. -/
def parseVariableDeclaration :
    Nat → ParserState → Except CErr (ASTNode × ParserState)
  | 0, _ => .error .recursionErr
  | f + 1, ps =>
    match eat ps.tok.type ps with
    | .error e => .error e
    | .ok ps1 =>
      match eat .IDENTIFIER ps1 with
      | .error e => .error e
      | .ok ps2 =>
        match eat .ASSIGN ps2 with
        | .error e => .error e
        | .ok ps3 =>
          match parseExpression f ps3 with
          | .error e => .error e
          | .ok (value, ps4) =>
            .ok (.variableDecl ps1.tok.value (some ps.tok.value) value, ps4)

/-- `Parser.parse_assignment`. -/
def parseAssignment : Nat → ParserState → Except CErr (ASTNode × ParserState)
  | 0, _ => .error .recursionErr
  | f + 1, ps =>
    match eat .IDENTIFIER ps with
    | .error e => .error e
    | .ok ps1 =>
      match eat .ASSIGN ps1 with
      | .error e => .error e
      | .ok ps2 =>
        match parseExpression f ps2 with
        | .error e => .error e
        | .ok (value, ps3) => .ok (.assignment ps.tok.value value, ps3)

/-- `Parser.parse_display`. -/
def parseDisplay : Nat → ParserState → Except CErr (ASTNode × ParserState)
  | 0, _ => .error .recursionErr
  | f + 1, ps =>
    match eat .DISPLAY ps with
    | .error e => .error e
    | .ok ps1 =>
      match parseExpression f ps1 with
      | .error e => .error e
      | .ok (value, ps2) => .ok (.display value, ps2)

/-- `Parser.parse_expression`: a term, then the PLUS/MINUS loop. -/
def parseExpression : Nat → ParserState → Except CErr (ASTNode × ParserState)
  | 0, _ => .error .recursionErr
  | f + 1, ps =>
    match parseTerm f ps with
    | .error e => .error e
    | .ok (node, ps1) => exprLoop f node ps1

/-- The `while current in [PLUS, MINUS]` loop of `parse_expression`;
left-associates each new term onto the node. -/
def exprLoop : Nat → ASTNode → ParserState → Except CErr (ASTNode × ParserState)
  | 0, _, _ => .error .recursionErr
  | f + 1, node, ps =>
    if ps.tok.type = .PLUS ∨ ps.tok.type = .MINUS then
      match eat ps.tok.type ps with
      | .error e => .error e
      | .ok ps1 =>
        match parseTerm f ps1 with
        | .error e => .error e
        | .ok (right, ps2) => exprLoop f (.binaryOp node ps.tok.type right) ps2
    else .ok (node, ps)

/-- `Parser.parse_term`: a factor, then the MULTIPLY/DIVIDE loop. -/
def parseTerm : Nat → ParserState → Except CErr (ASTNode × ParserState)
  | 0, _ => .error .recursionErr
  | f + 1, ps =>
    match parseFactor f ps with
    | .error e => .error e
    | .ok (node, ps1) => termLoop f node ps1

/-- The `while current in [MULTIPLY, DIVIDE]` loop of `parse_term`. -/
def termLoop : Nat → ASTNode → ParserState → Except CErr (ASTNode × ParserState)
  | 0, _, _ => .error .recursionErr
  | f + 1, node, ps =>
    if ps.tok.type = .MULTIPLY ∨ ps.tok.type = .DIVIDE then
      match eat ps.tok.type ps with
      | .error e => .error e
      | .ok ps1 =>
        match parseFactor f ps1 with
        | .error e => .error e
        | .ok (right, ps2) => termLoop f (.binaryOp node ps.tok.type right) ps2
    else .ok (node, ps)

/-- `Parser.parse_factor`: literals, identifiers and parenthesised
expressions; `float(token.value)` runs after the NUMBER token is eaten and
raises ValueError on a malformed lexeme. -/
def parseFactor : Nat → ParserState → Except CErr (ASTNode × ParserState)
  | 0, _ => .error .recursionErr
  | f + 1, ps =>
    if ps.tok.type = .NUMBER then
      match eat .NUMBER ps with
      | .error e => .error e
      | .ok ps1 =>
        match pyFloatOfLexeme ps.tok.value.data with
        | some v => .ok (.number v, ps1)
        | none => .error (.valueErr ps.tok.value)
    else if ps.tok.type = .STRING then
      match eat .STRING ps with
      | .error e => .error e
      | .ok ps1 => .ok (.stringLit ps.tok.value, ps1)
    else if ps.tok.type = .TRUE ∨ ps.tok.type = .FALSE then
      match eat ps.tok.type ps with
      | .error e => .error e
      | .ok ps1 => .ok (.boolean (ps.tok.type = .TRUE), ps1)
    else if ps.tok.type = .IDENTIFIER then
      match eat .IDENTIFIER ps with
      | .error e => .error e
      | .ok ps1 => .ok (.identifier ps.tok.value, ps1)
    else if ps.tok.type = .LPAREN then
      match eat .LPAREN ps with
      | .error e => .error e
      | .ok ps1 =>
        match parseExpression f ps1 with
        | .error e => .error e
        | .ok (node, ps2) =>
          match eat .RPAREN ps2 with
          | .error e => .error e
          | .ok ps3 => .ok (node, ps3)
    else .error (parseFail ("Unexpected factor token: " ++ ttStr ps.tok.type) ps)

end

/-- The metadata loop of `parse_program`: runs while the current token is an
IDENTIFIER; it eats the identifier and then requires a STRING (there is no
lookahead past the identifier).  Recognised keys (case-insensitively)
DESCRIPTION, AUTHOR, DATE; other keys are read and dropped. -/
def parseMetadata : Nat → Option String → Option String → Option String →
    ParserState →
    Except CErr ((Option String × Option String × Option String) × ParserState)
  | 0, _, _, _, _ => .error .recursionErr
  | f + 1, description, author, date, ps =>
    if ps.tok.type = .IDENTIFIER then
      match eat .IDENTIFIER ps with
      | .error e => .error e
      | .ok ps1 =>
        match eat .STRING ps1 with
        | .error e => .error e
        | .ok ps2 =>
          if pyUpper ps.tok.value = "DESCRIPTION" then
            parseMetadata f (some ps1.tok.value) author date ps2
          else if pyUpper ps.tok.value = "AUTHOR" then
            parseMetadata f description (some ps1.tok.value) date ps2
          else if pyUpper ps.tok.value = "DATE" then
            parseMetadata f description author (some ps1.tok.value) ps2
          else parseMetadata f description author date ps2
    else .ok ((description, author, date), ps)

/-- The body loop of `parse_program`: runs until PROGRAM, failing with
"Unexpected end of file" when the current token is EOF; statements that
parse to None (comments) are skipped. -/
def programBodyLoop : Nat → List ASTNode → ParserState →
    Except CErr (List ASTNode × ParserState)
  | 0, _, _ => .error .recursionErr
  | f + 1, acc, ps =>
    if ps.tok.type ≠ .PROGRAM then
      if ps.tok.type = .EOF then .error (parseFail "Unexpected end of file" ps)
      else
        match parseStatement f ps with
        | .error e => .error e
        | .ok (some s, ps1) => programBodyLoop f (acc ++ [s]) ps1
        | .ok (none, ps1) => programBodyLoop f acc ps1
    else .ok (acc, ps)

/-- `Parser.parse_program`: PROGRAM BEGIN, metadata, body, PROGRAM END. -/
def parseProgram : Nat → ParserState → Except CErr (ASTNode × ParserState)
  | 0, _ => .error .recursionErr
  | f + 1, ps =>
    match eat .PROGRAM ps with
    | .error e => .error e
    | .ok ps1 =>
      match eat .BEGIN ps1 with
      | .error e => .error e
      | .ok ps2 =>
        match parseMetadata f none none none ps2 with
        | .error e => .error e
        | .ok ((description, author, date), ps3) =>
          match programBodyLoop f [] ps3 with
          | .error e => .error e
          | .ok (body, ps4) =>
            match eat .PROGRAM ps4 with
            | .error e => .error e
            | .ok ps5 =>
              match eat .END ps5 with
              | .error e => .error e
              | .ok ps6 => .ok (.program description author date body, ps6)

/-!  The code generator (class CodeGenerator). -/

/-- One Symbol Table entry list: name mapped to declared type and generated
value text (`SymbolTable.define` overwrites an existing name, dict-style). -/
def defineSym (l : List (String × Option String × Option String))
    (n : String) (t v : Option String) :
    List (String × Option String × Option String) :=
  match l with
  | [] => [(n, t, v)]
  | (m, tt, vv) :: rest =>
    if m = n then (n, t, v) :: rest else (m, tt, vv) :: defineSym rest n t v

/-- Generator state: the run-scoped symbol table, the emitted lines and the
current indentation level (`indent`/`dedent` move it by one). -/
structure GenState where
  symbols : List (String × Option String × Option String)
  output : List String
  indentLevel : Int

/-- Python `"    " * level` (empty for a non-positive level). -/
def pyIndent (level : Int) : String :=
  String.join (List.replicate level.toNat "    ")

/-- `CodeGenerator.emit`: append one line at the current indentation. -/
def emit (code : String) (gs : GenState) : GenState :=
  { gs with output := gs.output ++ [pyIndent gs.indentLevel ++ code] }

/-- How Python renders a visit result inside an f-string: statements return
None, which prints as "None"; expression visits return their text. -/
def pyOptStr : Option String → String
  | some s => s
  | none => "None"

/-- The `op_map` dict of `visit_BinaryOp`; a missing key raises KeyError. -/
def opMap : TokenType → Option String
  | .PLUS => some "+"
  | .MINUS => some "-"
  | .MULTIPLY => some "*"
  | .DIVIDE => some "/"
  | _ => none

/-- The parameter-comment loop of `visit_FunctionDecl`: one comment line per
typed parameter. -/
def emitParamComments : List (String × Option String) → GenState → GenState
  | [], gs => gs
  | (n, some t) :: rest, gs =>
    emitParamComments rest (emit ("# Parameter " ++ n ++ ": " ++ t) gs)
  | (_, none) :: rest, gs => emitParamComments rest gs

/-- `emit` for a present metadata field, identity otherwise. -/
def emitMeta (label : String) : Option String → GenState → GenState
  | some x, gs => emit (label ++ x) gs
  | none, gs => gs

mutual

/-- `CodeGenerator.visit`, dispatching per node class.  Expression handlers
return `some` text and leave the state alone (except BinaryOp's possible
KeyError); statement handlers emit lines and return `none`; the Program
handler returns the full joined output, as in the source. -/
def visit : ASTNode → GenState → Except CErr (Option String × GenState)
  | .program description author date body, gs =>
    let gs := emit "# Generated Python code" gs
    let gs := emitMeta "# Description: " description gs
    let gs := emitMeta "# Author: " author gs
    let gs := emitMeta "# Date: " date gs
    let gs := emit "" gs
    match visitBody body gs with
    | .error e => .error e
    | .ok gs => .ok (some (String.intercalate "\n" gs.output), gs)
  | .functionDecl name params returnType body, gs =>
    let paramsText := String.intercalate ", " (params.map (fun p => p.1))
    let gs := emit ("def " ++ name ++ "(" ++ paramsText ++ "):") gs
    let gs := { gs with indentLevel := gs.indentLevel + 1 }
    let gs := emitParamComments params gs
    let gs := emitMeta "# Returns: " returnType gs
    match visitBody body gs with
    | .error e => .error e
    | .ok gs =>
      let gs := { gs with indentLevel := gs.indentLevel - 1 }
      .ok (none, emit "" gs)
  | .variableDecl name vtype value, gs =>
    match visit value gs with
    | .error e => .error e
    | .ok (v, gs) =>
      let gs := { gs with symbols := defineSym gs.symbols name vtype v }
      .ok (none, emit (name ++ " = " ++ pyOptStr v) gs)
  | .assignment target value, gs =>
    match visit value gs with
    | .error e => .error e
    | .ok (v, gs) => .ok (none, emit (target ++ " = " ++ pyOptStr v) gs)
  | .binaryOp left operator right, gs =>
    match visit left gs with
    | .error e => .error e
    | .ok (lv, gs) =>
      match visit right gs with
      | .error e => .error e
      | .ok (rv, gs) =>
        match opMap operator with
        | some o =>
          .ok (some ("(" ++ pyOptStr lv ++ " " ++ o ++ " " ++ pyOptStr rv ++ ")"),
            gs)
        | none => .error (.keyError operator)
  | .number value, gs => .ok (some (pyFloatStr value), gs)
  | .stringLit value, gs => .ok (some ("\"" ++ value ++ "\""), gs)
  | .boolean value, gs => .ok (some (if value then "True" else "False"), gs)
  | .identifier name, gs => .ok (some name, gs)
  | .display value, gs =>
    match visit value gs with
    | .error e => .error e
    | .ok (v, gs) => .ok (none, emit ("print(" ++ pyOptStr v ++ ")") gs)

/-- The `for statement in node.body: self.visit(statement)` loops: visit in
order, discarding each returned value. -/
def visitBody : List ASTNode → GenState → Except CErr GenState
  | [], gs => .ok gs
  | s :: rest, gs =>
    match visit s gs with
    | .error e => .error e
    | .ok (_, gs) => visitBody rest gs

end

/-!  The orchestrator (class NovaScriptCompiler). -/

/-- Fuel bound for the parser: every recursive call of the embedded parser
consumes one unit and each consumed token advances the cursor, so this bound
is beyond any terminating parse of the source; exceeding it is the analogue
of Python's RecursionError on unboundedly nested input. -/
def parserFuel (src : String) : Nat := 16 * src.length + 64

/-- What `str(e)` prints for each failure kind at the orchestrator. -/
def errMsg : CErr → String
  | .lexErr c line column =>
    "Invalid character '" ++ String.singleton c ++ "' at line " ++
      Nat.repr line ++ ", column " ++ Nat.repr column
  | .parseErr msg line column =>
    msg ++ " at line " ++ Nat.repr line ++ ", column " ++ Nat.repr column
  | .valueErr lexeme => "could not convert string to float: '" ++ lexeme ++ "'"
  | .keyError op => ttRepr op
  | .recursionErr => "maximum recursion depth exceeded"

/-- The three stages in sequence: lex (lazily, via the parser), parse,
generate.  `visit` of a program node always returns `some` code; `pyOptStr`
covers the vacuous `none` case the way Python's untyped return would. -/
def runPipeline (src : String) : Except CErr String :=
  match parserInit (lexerInit src) with
  | .error e => .error e
  | .ok ps =>
    match parseProgram (parserFuel src) ps with
    | .error e => .error e
    | .ok (ast, _) =>
      match visit ast ⟨[], [], 0⟩ with
      | .error e => .error e
      | .ok (code, _) => .ok (pyOptStr code)

/-- `NovaScriptCompiler.compile`: the single recovery boundary; every stage
failure becomes the "Compilation error: " string. -/
def compile (sourceCode : String) : String :=
  match runPipeline sourceCode with
  | .ok code => code
  | .error e => "Compilation error: " ++ errMsg e

/-!  Predicates and measures used by the theorems. -/

mutual

/-- Every `binaryOp` node in the tree carries an operator tag from
{PLUS, MINUS, MULTIPLY, DIVIDE} (the domain of the generator's op_map). -/
def opsOK : ASTNode → Bool
  | .program _ _ _ body => opsOKList body
  | .functionDecl _ _ _ body => opsOKList body
  | .variableDecl _ _ v => opsOK v
  | .assignment _ v => opsOK v
  | .binaryOp l operator r =>
    (decide (operator = .PLUS ∨ operator = .MINUS ∨ operator = .MULTIPLY ∨
      operator = .DIVIDE)) && opsOK l && opsOK r
  | .number _ => true
  | .stringLit _ => true
  | .boolean _ => true
  | .identifier _ => true
  | .display v => opsOK v

/-- `opsOK` over a statement list. -/
def opsOKList : List ASTNode → Bool
  | [] => true
  | s :: rest => opsOK s && opsOKList rest

end

mutual

/-- Node count, the induction measure for the generator proofs. -/
def nsize : ASTNode → Nat
  | .program _ _ _ body => nsizeList body + 1
  | .functionDecl _ _ _ body => nsizeList body + 1
  | .variableDecl _ _ v => nsize v + 1
  | .assignment _ v => nsize v + 1
  | .binaryOp l _ r => nsize l + nsize r + 1
  | .number _ => 1
  | .stringLit _ => 1
  | .boolean _ => 1
  | .identifier _ => 1
  | .display v => nsize v + 1

/-- Node count of a statement list (cons cells counted, so both the head
node and the tail list sit strictly below the list in the measure). -/
def nsizeList : List ASTNode → Nat
  | [] => 0
  | s :: rest => nsize s + nsizeList rest + 1

end

/-- A closing "*/" pair occurs somewhere in the character list. -/
def hasStarSlash : List Char → Bool
  | [] => false
  | c :: rs => (c = '*' ∧ rs.head? = some '/') || hasStarSlash rs

/-- A small complete program exercising a binary operation. -/
def demoSrc : String := "PROGRAM BEGIN display 1 + 2 PROGRAM END"

/-- The parser state after priming the token buffer on `demoSrc`. -/
def demoPs : ParserState :=
  ⟨⟨" BEGIN display 1 + 2 PROGRAM END".data, 1, 8⟩, ⟨.PROGRAM, "PROGRAM", 1, 1⟩⟩

/-- The AST `parse_program` produces for `demoSrc`. -/
def demoAst : ASTNode :=
  .program none none none
    [.display (.binaryOp (.number ⟨1, 0⟩) .PLUS (.number ⟨2, 0⟩))]

/-- The parser state left after parsing `demoSrc`. -/
def demoPsEnd : ParserState := ⟨⟨[], 1, 40⟩, ⟨.EOF, "", 1, 40⟩⟩

/-!  Helper lemmas about the code generator's state handling. -/

theorem emit_indentLevel (c : String) (gs : GenState) :
    (emit c gs).indentLevel = gs.indentLevel := rfl

theorem emitMeta_indentLevel (lab : String) (o : Option String) (gs : GenState) :
    (emitMeta lab o gs).indentLevel = gs.indentLevel := by
  cases o <;> rfl

theorem emitParamComments_indentLevel (l : List (String × Option String))
    (gs : GenState) : (emitParamComments l gs).indentLevel = gs.indentLevel := by
  induction l generalizing gs with
  | nil => rfl
  | cons p rest ih =>
    match p with
    | (n, some t) => rw [emitParamComments, ih, emit_indentLevel]
    | (n, none) => rw [emitParamComments, ih]

theorem nsize_pos (n : ASTNode) : 1 ≤ nsize n := by
  cases n <;> simp [nsize]

/-- Every statement or expression visit that returns normally restores the
indentation level (simultaneous induction on the node measure). -/
theorem genIndentPack : ∀ k : Nat,
    (∀ n : ASTNode, nsize n ≤ k → ∀ gs r gs',
      visit n gs = Except.ok (r, gs') → gs'.indentLevel = gs.indentLevel) ∧
    (∀ l : List ASTNode, nsizeList l ≤ k → ∀ gs gs',
      visitBody l gs = Except.ok gs' → gs'.indentLevel = gs.indentLevel) := by
  intro k
  induction k with
  | zero =>
    constructor
    · intro n hn
      exact absurd (le_trans (nsize_pos n) hn) (by omega)
    · intro l hl gs gs' h
      cases l with
      | nil =>
        rw [visitBody] at h
        cases h
        rfl
      | cons s rest =>
        rw [nsizeList] at hl
        have := nsize_pos s
        omega
  | succ k ih =>
    obtain ⟨ihN, ihL⟩ := ih
    constructor
    · intro n hn gs r gs' h
      cases n with
      | program d a dt body =>
        rw [visit] at h
        rw [nsize] at hn
        split at h
        · exact absurd h (by simp)
        · next gsb heq =>
          cases h
          rw [ihL body (by omega) _ _ heq]
          rw [emit_indentLevel, emitMeta_indentLevel, emitMeta_indentLevel,
            emitMeta_indentLevel, emit_indentLevel]
      | functionDecl name params rt body =>
        rw [visit] at h
        rw [nsize] at hn
        split at h
        · exact absurd h (by simp)
        · next gsb heq =>
          cases h
          have hb := ihL body (by omega) _ _ heq
          rw [emitMeta_indentLevel, emitParamComments_indentLevel] at hb
          simp only [emit_indentLevel]
          simp only [emit_indentLevel] at hb
          rw [hb]
          omega
      | variableDecl name vt v =>
        rw [visit] at h
        rw [nsize] at hn
        split at h
        · exact absurd h (by simp)
        · next val gs1 heq =>
          cases h
          have := ihN v (by omega) _ _ _ heq
          simp only [emit_indentLevel]
          exact this
      | assignment t v =>
        rw [visit] at h
        rw [nsize] at hn
        split at h
        · exact absurd h (by simp)
        · next val gs1 heq =>
          cases h
          simp only [emit_indentLevel]
          exact ihN v (by omega) _ _ _ heq
      | binaryOp l op r' =>
        rw [visit] at h
        rw [nsize] at hn
        split at h
        · exact absurd h (by simp)
        · next lv gs1 heq1 =>
          split at h
          · exact absurd h (by simp)
          · next rv gs2 heq2 =>
            split at h
            · next o ho =>
              cases h
              rw [ihN r' (by omega) _ _ _ heq2, ihN l (by omega) _ _ _ heq1]
            · exact absurd h (by simp)
      | number v => rw [visit] at h; cases h; rfl
      | stringLit v => rw [visit] at h; cases h; rfl
      | boolean v => rw [visit] at h; cases h; rfl
      | identifier nm => rw [visit] at h; cases h; rfl
      | display v =>
        rw [visit] at h
        rw [nsize] at hn
        split at h
        · exact absurd h (by simp)
        · next val gs1 heq =>
          cases h
          simp only [emit_indentLevel]
          exact ihN v (by omega) _ _ _ heq
    · intro l hl gs gs' h
      cases l with
      | nil => rw [visitBody] at h; cases h; rfl
      | cons s rest =>
        rw [visitBody] at h
        rw [nsizeList] at hl
        split at h
        · exact absurd h (by simp)
        · next val gs1 heq =>
          have h1 := ihN s (by have := nsize_pos s; omega) _ _ _ heq
          have h2 := ihL rest (by have := nsize_pos s; omega) _ _ h
          rw [h2, h1]

theorem opMap_isSome_of (op : TokenType)
    (h : op = .PLUS ∨ op = .MINUS ∨ op = .MULTIPLY ∨ op = .DIVIDE) :
    ∃ o, opMap op = some o := by
  rcases h with h | h | h | h <;> subst h <;> exact ⟨_, rfl⟩

/-- On a tree whose operators all lie in op_map's domain, every visit
returns normally (simultaneous induction on the node measure). -/
theorem genTotalPack : ∀ k : Nat,
    (∀ n : ASTNode, nsize n ≤ k → opsOK n = true → ∀ gs,
      ∃ r, visit n gs = Except.ok r) ∧
    (∀ l : List ASTNode, nsizeList l ≤ k → opsOKList l = true → ∀ gs,
      ∃ gs', visitBody l gs = Except.ok gs') := by
  intro k
  induction k with
  | zero =>
    constructor
    · intro n hn
      exact absurd (le_trans (nsize_pos n) hn) (by omega)
    · intro l hl hok gs
      cases l with
      | nil => exact ⟨gs, rfl⟩
      | cons s rest =>
        rw [nsizeList] at hl
        have := nsize_pos s
        omega
  | succ k ih =>
    obtain ⟨ihN, ihL⟩ := ih
    constructor
    · intro n hn hok gs
      cases n with
      | program d a dt body =>
        rw [nsize] at hn
        rw [opsOK] at hok
        obtain ⟨gsb, hgsb⟩ := ihL body (by omega) hok
          (emit "" (emitMeta "# Date: " dt (emitMeta "# Author: " a
            (emitMeta "# Description: " d (emit "# Generated Python code" gs)))))
        exact ⟨_, by simp only [visit, hgsb]; try rfl⟩
      | functionDecl name params rt body =>
        rw [nsize] at hn
        rw [opsOK] at hok
        obtain ⟨gsb, hgsb⟩ := ihL body (by omega) hok
          (emitMeta "# Returns: " rt (emitParamComments params
            (let gs1 := emit ("def " ++ name ++ "(" ++
              String.intercalate ", " (params.map (fun p => p.1)) ++ "):") gs
            { symbols := gs1.symbols, output := gs1.output,
              indentLevel := gs1.indentLevel + 1 })))
        exact ⟨_, by simp only [visit, hgsb]; try rfl⟩
      | variableDecl name vt v =>
        rw [nsize] at hn
        rw [opsOK] at hok
        obtain ⟨⟨val, gs1⟩, h1⟩ := ihN v (by omega) hok gs
        exact ⟨_, by simp only [visit, h1]; try rfl⟩
      | assignment t v =>
        rw [nsize] at hn
        rw [opsOK] at hok
        obtain ⟨⟨val, gs1⟩, h1⟩ := ihN v (by omega) hok gs
        exact ⟨_, by simp only [visit, h1]; try rfl⟩
      | binaryOp l op r' =>
        rw [nsize] at hn
        rw [opsOK] at hok
        simp only [Bool.and_eq_true, decide_eq_true_eq] at hok
        obtain ⟨⟨hop, hl⟩, hr⟩ := hok
        obtain ⟨⟨lv, gs1⟩, h1⟩ := ihN l (by omega) hl gs
        obtain ⟨⟨rv, gs2⟩, h2⟩ := ihN r' (by omega) hr gs1
        obtain ⟨o, ho⟩ := opMap_isSome_of op hop
        exact ⟨_, by simp only [visit, h1, h2, ho]; try rfl⟩
      | number v => exact ⟨_, rfl⟩
      | stringLit v => exact ⟨_, rfl⟩
      | boolean v => exact ⟨_, rfl⟩
      | identifier nm => exact ⟨_, rfl⟩
      | display v =>
        rw [nsize] at hn
        rw [opsOK] at hok
        obtain ⟨⟨val, gs1⟩, h1⟩ := ihN v (by omega) hok gs
        exact ⟨_, by simp only [visit, h1]; try rfl⟩
    · intro l hl hok gs
      cases l with
      | nil => exact ⟨gs, rfl⟩
      | cons s rest =>
        rw [nsizeList] at hl
        rw [opsOKList] at hok
        simp only [Bool.and_eq_true] at hok
        obtain ⟨h1, h2⟩ := hok
        obtain ⟨⟨v, gs1⟩, hv⟩ := ihN s (by have := nsize_pos s; omega) h1 gs
        obtain ⟨gs', hrest⟩ := ihL rest (by have := nsize_pos s; omega) h2 gs1
        exact ⟨gs', by simp only [visitBody, hv]; exact hrest⟩

theorem opsOKList_append (l1 l2 : List ASTNode) :
    opsOKList (l1 ++ l2) = (opsOKList l1 && opsOKList l2) := by
  induction l1 with
  | nil => simp [opsOKList]
  | cons s rest ih => simp [opsOKList, ih, Bool.and_assoc]

set_option maxHeartbeats 2000000 in
/-- Every AST a parser entry point returns satisfies `opsOK`: binary nodes
are built only in the PLUS/MINUS and MULTIPLY/DIVIDE loops (induction on
fuel, simultaneously over all mutually recursive parse functions). -/
theorem parserOpsPack : ∀ fuel : Nat,
    (∀ ps r, parseFactor fuel ps = Except.ok r → opsOK r.1 = true) ∧
    (∀ node ps r, termLoop fuel node ps = Except.ok r →
      opsOK node = true → opsOK r.1 = true) ∧
    (∀ ps r, parseTerm fuel ps = Except.ok r → opsOK r.1 = true) ∧
    (∀ node ps r, exprLoop fuel node ps = Except.ok r →
      opsOK node = true → opsOK r.1 = true) ∧
    (∀ ps r, parseExpression fuel ps = Except.ok r → opsOK r.1 = true) ∧
    (∀ ps r, parseDisplay fuel ps = Except.ok r → opsOK r.1 = true) ∧
    (∀ ps r, parseAssignment fuel ps = Except.ok r → opsOK r.1 = true) ∧
    (∀ ps r, parseVariableDeclaration fuel ps = Except.ok r →
      opsOK r.1 = true) ∧
    (∀ acc ps r, funcBodyLoop fuel acc ps = Except.ok r →
      opsOKList acc = true → opsOKList r.1 = true) ∧
    (∀ ps r, parseFunction fuel ps = Except.ok r → opsOK r.1 = true) ∧
    (∀ ps r s, parseStatement fuel ps = Except.ok r → r.1 = some s →
      opsOK s = true) := by
  intro fuel
  induction fuel with
  | zero =>
    refine ⟨fun ps r h => ?_, fun node ps r h => ?_, fun ps r h => ?_,
      fun node ps r h => ?_, fun ps r h => ?_, fun ps r h => ?_,
      fun ps r h => ?_, fun ps r h => ?_, fun acc ps r h => ?_,
      fun ps r h => ?_, fun ps r s h => ?_⟩
    · simp [parseFactor] at h
    · simp [termLoop] at h
    · simp [parseTerm] at h
    · simp [exprLoop] at h
    · simp [parseExpression] at h
    · simp [parseDisplay] at h
    · simp [parseAssignment] at h
    · simp [parseVariableDeclaration] at h
    · simp [funcBodyLoop] at h
    · simp [parseFunction] at h
    · simp [parseStatement] at h
  | succ f ih =>
    obtain ⟨ihFactor, ihTermLoop, ihTerm, ihExprLoop, ihExpr, ihDisplay,
      ihAssign, ihVar, ihFuncBody, ihFunc, ihStmt⟩ := ih
    refine ⟨?_, ?_, ?_, ?_, ?_, ?_, ?_, ?_, ?_, ?_, ?_⟩
    -- parseFactor
    · intro ps r h
      rw [parseFactor] at h
      repeat' split at h
      all_goals cases h
      all_goals simp_all [opsOK, opsOKList]
      all_goals solve_by_elim
    -- termLoop
    · intro node ps r h hnode
      rw [termLoop] at h
      split at h
      · split at h
        · simp at h
        · next ps1 heat =>
          split at h
          · simp at h
          · next right ps2 hfac =>
            refine ihTermLoop _ _ _ h ?_
            have hr := ihFactor _ _ hfac
            next hc _ _ =>
              rcases hc with hc | hc <;> simp_all [opsOK]
      · cases h; simpa using hnode
    -- parseTerm
    · intro ps r h
      rw [parseTerm] at h
      split at h
      · simp at h
      · next node ps1 hfac =>
        exact ihTermLoop _ _ _ h (ihFactor _ _ hfac)
    -- exprLoop
    · intro node ps r h hnode
      rw [exprLoop] at h
      split at h
      · split at h
        · simp at h
        · next ps1 heat =>
          split at h
          · simp at h
          · next right ps2 hterm =>
            refine ihExprLoop _ _ _ h ?_
            have hr := ihTerm _ _ hterm
            next hc _ _ =>
              rcases hc with hc | hc <;> simp_all [opsOK]
      · cases h; simpa using hnode
    -- parseExpression
    · intro ps r h
      rw [parseExpression] at h
      split at h
      · simp at h
      · next node ps1 hterm =>
        exact ihExprLoop _ _ _ h (ihTerm _ _ hterm)
    -- parseDisplay
    · intro ps r h
      rw [parseDisplay] at h
      repeat' split at h
      all_goals cases h
      all_goals simp_all [opsOK, opsOKList]
      all_goals solve_by_elim
    -- parseAssignment
    · intro ps r h
      rw [parseAssignment] at h
      repeat' split at h
      all_goals cases h
      all_goals simp_all [opsOK, opsOKList]
      all_goals solve_by_elim
    -- parseVariableDeclaration
    · intro ps r h
      rw [parseVariableDeclaration] at h
      repeat' split at h
      all_goals cases h
      all_goals simp_all [opsOK, opsOKList]
      all_goals solve_by_elim
    -- funcBodyLoop
    · intro acc ps r h hacc
      rw [funcBodyLoop] at h
      split at h
      · split at h
        · simp at h
        · next s ps1 hstmt =>
          refine ihFuncBody _ _ _ h ?_
          have hs := ihStmt _ _ _ hstmt rfl
          simp [opsOKList_append, hacc, hs, opsOKList]
        · next ps1 hstmt => exact ihFuncBody _ _ _ h hacc
      · cases h; simpa using hacc
    -- parseFunction
    · intro ps r h
      rw [parseFunction] at h
      repeat' split at h
      all_goals cases h
      all_goals simp_all [opsOK, opsOKList]
      all_goals solve_by_elim
    -- parseStatement
    · intro ps r s h hs
      rw [parseStatement] at h
      split at h
      · split at h
        · simp at h
        · cases h; simp at hs
      · split at h
        · split at h
          · simp at h
          · next r1 heq =>
            cases h
            have hv := ihFunc _ _ heq
            simp at hs
            rwa [hs] at hv
        · split at h
          · split at h
            · simp at h
            · next r1 heq =>
              cases h
              have hv := ihVar _ _ heq
              simp at hs
              rwa [hs] at hv
          · split at h
            · split at h
              · simp at h
              · next r1 heq =>
                cases h
                have hv := ihAssign _ _ heq
                simp at hs
                rwa [hs] at hv
            · split at h
              · split at h
                · simp at h
                · next r1 heq =>
                  cases h
                  have hv := ihDisplay _ _ heq
                  simp at hs
                  rwa [hs] at hv
              · simp at h

theorem programBodyLoop_opsOK : ∀ fuel acc ps r,
    programBodyLoop fuel acc ps = Except.ok r → opsOKList acc = true →
    opsOKList r.1 = true := by
  intro fuel
  induction fuel with
  | zero => intro acc ps r h _; simp [programBodyLoop] at h
  | succ f ih =>
    intro acc ps r h hacc
    rw [programBodyLoop] at h
    split at h
    · split at h
      · simp at h
      · split at h
        · simp at h
        · next s ps1 hstmt =>
          refine ih _ _ _ h ?_
          have hs := (parserOpsPack f).2.2.2.2.2.2.2.2.2.2 _ _ _ hstmt rfl
          simp [opsOKList_append, hacc, hs, opsOKList]
        · next ps1 hstmt => exact ih _ _ _ h hacc
    · cases h; simpa using hacc

/-- The AST returned by `parse_program` satisfies `opsOK`. -/
theorem parseProgram_opsOK : ∀ fuel ps r,
    parseProgram fuel ps = Except.ok r → opsOK r.1 = true := by
  intro fuel ps r h
  cases fuel with
  | zero => simp [parseProgram] at h
  | succ f =>
    rw [parseProgram] at h
    split at h
    · simp at h
    · split at h
      · simp at h
      · split at h
        · simp at h
        · next d a dt ps3 hmd =>
          split at h
          · simp at h
          · next body ps4 hbody =>
            split at h
            · simp at h
            · split at h
              · simp at h
              · cases h
                simp only [opsOK]
                exact programBodyLoop_opsOK _ _ _ _ hbody rfl

/-!  Helper lemmas about the lexer's unterminated-literal behaviour. -/

theorem readStringAux_consumes : ∀ (l : List Char) (col : Nat) (acc : List Char),
    '"' ∉ l → readStringAux l col acc = (acc ++ l, [], col + l.length) := by
  intro l
  induction l with
  | nil => intro col acc _; simp [readStringAux]
  | cons c rs ih =>
    intro col acc hmem
    have hc : c ≠ '"' := fun e => hmem (e ▸ List.mem_cons_self c rs)
    rw [readStringAux]
    simp only [hc, ne_eq, not_false_iff, if_true]
    rw [ih (col + 1) (acc ++ [c]) (fun hm => hmem (List.mem_cons_of_mem _ hm))]
    simp [List.length_cons]
    omega

theorem blockCommentAux_consumes : ∀ (l : List Char) (line col : Nat)
    (acc : List Char), hasStarSlash l = false →
    ∃ line2 col2, blockCommentAux l line col acc = (acc ++ l, [], line2, col2) := by
  intro l
  induction l with
  | nil => intro line col acc _; exact ⟨line, col, by simp [blockCommentAux]⟩
  | cons c rs ih =>
    intro line col acc h
    rw [hasStarSlash] at h
    simp only [Bool.or_eq_false_iff, decide_eq_false_iff_not] at h
    obtain ⟨h1, h2⟩ := h
    rw [blockCommentAux]
    simp only [h1, if_false]
    by_cases hnl : c = '\n'
    · simp only [hnl, if_true]
      obtain ⟨l2, c2, hrec⟩ := ih (line + 1) 1 (acc ++ ['\n']) h2
      exact ⟨l2, c2, by rw [hrec]; simp [hnl]⟩
    · simp only [hnl, if_false]
      obtain ⟨l2, c2, hrec⟩ := ih line (col + 1) (acc ++ [c]) h2
      exact ⟨l2, c2, by rw [hrec]; simp⟩

/-!  The claims. -/

/-- C1: for every input source string, `compile` returns normally with
either the complete generated-code string of a successful pipeline run or a
string of the form "Compilation error: <message>" produced from the failure
of some stage — never a partial or truncated generation. -/
theorem C1_compile_returns_error_string_or_complete_output :
    ∀ src : String,
      (∃ e, runPipeline src = Except.error e ∧
        compile src = "Compilation error: " ++ errMsg e) ∨
      (∃ code, runPipeline src = Except.ok code ∧ compile src = code) := by
  intro src
  cases h : runPipeline src with
  | error e => exact Or.inl ⟨e, rfl, by simp [compile, h]⟩
  | ok code => exact Or.inr ⟨code, rfl, by simp [compile, h]⟩

/-- C2 counterexample: a source containing '@' (a character matching no
lexical rule) whose compilation nevertheless succeeds with a generated-code
string: the '@' sits after the token that follows the final PROGRAM END, so
the lazily-driven lexer never reaches it. -/
theorem C2_counterexample_unreached_invalid_char :
    '@' ∈ ("PROGRAM BEGIN\ndisplay 1\nPROGRAM END ok @").data ∧
    compile "PROGRAM BEGIN\ndisplay 1\nPROGRAM END ok @" =
      "# Generated Python code\n\nprint(1.0)" ∧
    ("Compilation error:").data.isPrefixOf
      (compile "PROGRAM BEGIN\ndisplay 1\nPROGRAM END ok @").data = false := by
  refine ⟨by decide, by rfl, by decide⟩

/-- C2 (amended): whenever the pipeline fails with the lexer's
invalid-character error — the lexer's only failure, raised when it reaches a
character matching no rule in token position — `compile` returns exactly the
"Compilation error:" string carrying that character and its 1-based line and
column; a character inside a string literal or comment, or positioned after
the token that follows the parsed program's final END, is never reached and
raises nothing. -/
theorem C2_lex_failure_yields_error_string :
    ∀ (src : String) (c : Char) (line col : Nat),
      runPipeline src = Except.error (.lexErr c line col) →
      compile src = "Compilation error: " ++ ("Invalid character '" ++
        String.singleton c ++ "' at line " ++ Nat.repr line ++ ", column " ++
        Nat.repr col) := by
  intro src c line col h
  simp [compile, h, errMsg]

/-- C2 witness: the lexer reaches '@' at line 1, column 1 of the source
"@", and compile returns the corresponding error string. -/
theorem C2_witness :
    runPipeline "@" = Except.error (.lexErr '@' 1 1) ∧
    compile "@" = "Compilation error: Invalid character '@' at line 1, column 1" :=
  ⟨by rfl, C2_lex_failure_yields_error_string "@" '@' 1 1 (by rfl)⟩

/-- C3 counterexample: a program whose body begins with the assignment
"x = 1" directly after PROGRAM BEGIN is not parsed as a body statement; the
metadata loop (which tests only that the current token is an IDENTIFIER,
with no lookahead) consumes the x and then demands a STRING, failing. -/
theorem C3_counterexample_assignment_first :
    compile "PROGRAM BEGIN\nx = 1\nPROGRAM END" =
      "Compilation error: Expected TokenType.STRING, got TokenType.ASSIGN at line 2, column 3" := by
  rfl

/-- C3 (amended): the metadata loop runs while the current token is an
IDENTIFIER, without any lookahead at the following token: it eats the
identifier and then requires a STRING, so a program whose body begins with
an IDENTIFIER not followed by a STRING (e.g. an assignment as the first
statement) fails with an "Expected TokenType.STRING" parse error at the
following token instead of being parsed as a body statement. -/
theorem C3_metadata_loop_no_lookahead :
    ∀ (f : Nat) (d a dt : Option String) (ps : ParserState) (t : Token)
      (lx : LexState),
      ps.tok.type = .IDENTIFIER →
      getNextToken ps.lexer = Except.ok (t, lx) →
      t.type ≠ .STRING →
      parseMetadata (f + 1) d a dt ps = Except.error
        (.parseErr ("Expected " ++ ttStr .STRING ++ ", got " ++ ttStr t.type)
          t.line t.column) := by
  intro f d a dt ps t lx hid hnext hnstr
  have he : eat .IDENTIFIER ps = Except.ok ⟨lx, t⟩ := by
    simp [eat, hid, hnext]
  rw [parseMetadata, if_pos hid, he]
  simp [eat, hnstr, parseFail]

/-- C3 witness: in the state reached after PROGRAM BEGIN of the program
"PROGRAM BEGIN\nx = 1\nPROGRAM END" (current token the IDENTIFIER x, next
token the ASSIGN at line 2, column 3), the metadata loop fails with the
expected-STRING error. -/
theorem C3_witness :
    (⟨⟨" = 1".data, 2, 2⟩, ⟨.IDENTIFIER, "x", 2, 1⟩⟩ : ParserState).tok.type =
      TokenType.IDENTIFIER ∧
    parseMetadata 6 none none none
        ⟨⟨" = 1".data, 2, 2⟩, ⟨.IDENTIFIER, "x", 2, 1⟩⟩ =
      Except.error (.parseErr "Expected TokenType.STRING, got TokenType.ASSIGN" 2 3) :=
  ⟨rfl, C3_metadata_loop_no_lookahead 5 none none none
    ⟨⟨" = 1".data, 2, 2⟩, ⟨.IDENTIFIER, "x", 2, 1⟩⟩
    ⟨.ASSIGN, "=", 2, 3⟩ ⟨" 1".data, 2, 4⟩ rfl rfl (by decide)⟩

/-- C4 counterexample: two parameters with no separating COMMA —
"func f(a b)" — do not make parsing fail; the parameter loop requires no
comma and the function compiles, with both parameters present. -/
theorem C4_counterexample_missing_comma_accepted :
    compile "PROGRAM BEGIN\nfunc f(a b)\ndisplay a\nEND\nPROGRAM END" =
      "# Generated Python code\n\ndef f(a, b):\n    print(a)\n" := by
  rfl

/-- C4 (amended): the parameter loop runs until RPAREN reading
IDENTIFIER (COLON IDENTIFIER)? groups and eats a COMMA only when one is
present, so the separating comma is optional: "func f(a b)" parses to a
FunctionDecl with parameter pairs [(a, none), (b, none)] in source order,
and a well-formed comma-separated list also yields its pairs in source
order (the type annotations surfacing as ordered comment lines). -/
theorem C4_params_comma_optional_in_order :
    (∃ ps', parseFunction 30
        ⟨⟨" f(a b)\ndisplay a\nEND".data, 1, 5⟩, ⟨.FUNC, "func", 1, 1⟩⟩ =
      Except.ok (.functionDecl "f" [("a", none), ("b", none)] none
        [.display (.identifier "a")], ps')) ∧
    compile "PROGRAM BEGIN\nfunc g(x: alpha, y: beta, z)\ndisplay x\nEND\nPROGRAM END" =
      "# Generated Python code\n\ndef g(x, y, z):\n    # Parameter x: alpha\n    # Parameter y: beta\n    print(x)\n" := by
  exact ⟨⟨⟨⟨[], 3, 4⟩, ⟨.EOF, "", 3, 4⟩⟩, by rfl⟩, by rfl⟩

/-- C5 counterexample: a function declaration truncated at end of input
fails not with an "unexpected end of file" error but with the statement
dispatcher's "Unexpected token TokenType.EOF" error. -/
theorem C5_counterexample_function_body_eof_message :
    compile "PROGRAM BEGIN\nfunc g()\ndisplay 2\n" =
      "Compilation error: Unexpected token TokenType.EOF at line 4, column 1" ∧
    ("Compilation error: Unexpected end of file").data.isPrefixOf
      (compile "PROGRAM BEGIN\nfunc g()\ndisplay 2\n").data = false := by
  exact ⟨by rfl, by decide⟩

/-- C5 (amended): both body loops stop at their sentinel keyword (END for a
function body, PROGRAM for the program body); at EOF the program-body loop
fails with "Unexpected end of file", while the function-body loop has no
EOF test and fails through statement dispatch with
"Unexpected token TokenType.EOF". -/
theorem C5_eof_and_sentinel_behavior :
    compile "PROGRAM BEGIN\ndisplay 1\n" =
      "Compilation error: Unexpected end of file at line 3, column 1" ∧
    compile "PROGRAM BEGIN\nfunc f()\ndisplay 1\n" =
      "Compilation error: Unexpected token TokenType.EOF at line 4, column 1" ∧
    compile "PROGRAM BEGIN\nfunc f()\ndisplay 1\nEND\nPROGRAM END" =
      "# Generated Python code\n\ndef f():\n    print(1.0)\n" := by
  exact ⟨by rfl, by rfl, by rfl⟩

/-- C6: expression generation respects the grammar's precedence layering and
preserves explicit parenthesisation: "2 + 3 * 4" generates
"(2.0 + (3.0 * 4.0))" and "(2 + 3) * 4" generates "((2.0 + 3.0) * 4.0)",
number literals rendering in floating text form. -/
theorem C6_precedence_and_parens :
    compile "PROGRAM BEGIN\ndisplay 2 + 3 * 4\nPROGRAM END" =
      "# Generated Python code\n\nprint((2.0 + (3.0 * 4.0)))" ∧
    compile "PROGRAM BEGIN\ndisplay (2 + 3) * 4\nPROGRAM END" =
      "# Generated Python code\n\nprint(((2.0 + 3.0) * 4.0))" := by
  exact ⟨by rfl, by rfl⟩

/-- C7: on a string literal with no closing quote the lexer consumes to the
end of input and returns a STRING token holding the remainder, and on a
block comment with no closing star-slash it consumes to the end of input and
returns a COMMENT token holding the remainder — in both cases without any
lexical error. -/
theorem C7_unterminated_consume_to_eof :
    (∀ rest line col, '"' ∉ rest →
      getNextToken ⟨'"' :: rest, line, col⟩ =
        Except.ok (⟨.STRING, ⟨rest⟩, line, col⟩,
          ⟨[], line, col + 1 + rest.length⟩)) ∧
    (∀ rest line col, hasStarSlash rest = false →
      ∃ tok st2, getNextToken ⟨'/' :: '*' :: rest, line, col⟩ =
          Except.ok (tok, st2) ∧
        tok.type = .COMMENT ∧ tok.value = ⟨rest⟩ ∧ st2.rest = []) := by
  constructor
  · intro rest line col h
    have hs := readStringAux_consumes rest (col + 1) [] h
    simp [getNextToken, skipWhitespace, skipWsAux, pyIsSpace, readComment,
      pyIsDigit, pyIsAlpha, readString, advance, hs]
  · intro rest line col h
    obtain ⟨l2, c2, hb⟩ := blockCommentAux_consumes rest line (col + 2) [] h
    refine ⟨⟨.COMMENT, ⟨rest⟩, l2, col⟩, ⟨[], l2, c2⟩, ?_, rfl, rfl, rfl⟩
    simp [getNextToken, skipWhitespace, skipWsAux, pyIsSpace, readComment, hb]

/-- C7 witness: the unterminated string source fragment "abc (no closing
quote) lexes to a STRING token "abc" ending at end of input, and the
unterminated block comment opener followed by ab lexes to a COMMENT token
"ab" ending at end of input. -/
theorem C7_witness :
    ('"' ∉ "abc".data ∧
      getNextToken ⟨'"' :: "abc".data, 1, 1⟩ =
        Except.ok (⟨.STRING, "abc", 1, 1⟩, ⟨[], 1, 5⟩)) ∧
    (hasStarSlash "ab".data = false ∧
      ∃ tok st2, getNextToken ⟨'/' :: '*' :: "ab".data, 1, 1⟩ =
          Except.ok (tok, st2) ∧
        tok.type = .COMMENT ∧ tok.value = "ab" ∧ st2.rest = []) :=
  ⟨⟨by decide, C7_unterminated_consume_to_eof.1 "abc".data 1 1 (by decide)⟩,
   ⟨by rfl, C7_unterminated_consume_to_eof.2 "ab".data 1 1 (by rfl)⟩⟩

/-- C8: `compile` is deterministic — identical input text always yields the
identical output string, success or error. -/
theorem C8_compile_deterministic :
    ∀ s t : String, s = t → compile s = compile t := by
  intro s t h
  rw [h]

/-- C8 witness: determinism instantiated on a concrete program. -/
theorem C8_witness :
    compile "PROGRAM BEGIN\ndisplay true\nPROGRAM END" =
      compile "PROGRAM BEGIN\ndisplay true\nPROGRAM END" :=
  C8_compile_deterministic _ _ rfl

/-- C9: every BinaryOp node in any AST produced by `parse_program` carries
an operator tag in {PLUS, MINUS, MULTIPLY, DIVIDE} (the domain of the
generator's op_map), and consequently the generator's visit of such an AST
always returns normally: the missing-key failure branch of visit_BinaryOp is
unreachable from parser-produced trees. -/
theorem C9_parsed_ops_in_opmap_generator_total :
    ∀ fuel ps r, parseProgram fuel ps = Except.ok r →
      opsOK r.1 = true ∧ ∀ gs, ∃ out, visit r.1 gs = Except.ok out := by
  intro fuel ps r h
  have hops := parseProgram_opsOK fuel ps r h
  exact ⟨hops, fun gs => (genTotalPack (nsize r.1)).1 r.1 le_rfl hops gs⟩

/-- C9 witness: the AST parsed from "PROGRAM BEGIN display 1 + 2 PROGRAM
END" satisfies the operator invariant and generates successfully. -/
theorem C9_witness :
    opsOK demoAst = true ∧ ∃ out, visit demoAst ⟨[], [], 0⟩ = Except.ok out :=
  have h : parseProgram (parserFuel demoSrc) demoPs =
      Except.ok (demoAst, demoPsEnd) := by rfl
  ⟨(C9_parsed_ops_in_opmap_generator_total _ _ _ h).1,
   (C9_parsed_ops_in_opmap_generator_total _ _ _ h).2 ⟨[], [], 0⟩⟩

/-- C10: every visit that returns normally — statement kinds FunctionDecl,
VariableDecl, Assignment and Display included — restores the generator's
indentation level to its value before the visit. -/
theorem C10_visit_preserves_indent :
    ∀ (n : ASTNode) (gs : GenState) (r : Option String) (gs' : GenState),
      visit n gs = Except.ok (r, gs') → gs'.indentLevel = gs.indentLevel :=
  fun n gs r gs' h => (genIndentPack (nsize n)).1 n le_rfl gs r gs' h

/-- C10 witness: visiting a Display statement from the initial generator
state leaves the indentation level unchanged. -/
theorem C10_witness :
    visit (.display (.number ⟨1, 0⟩)) ⟨[], [], 0⟩ =
      Except.ok (none, ⟨[], ["print(1.0)"], 0⟩) ∧
    (⟨[], ["print(1.0)"], 0⟩ : GenState).indentLevel =
      (⟨[], [], 0⟩ : GenState).indentLevel :=
  ⟨rfl, C10_visit_preserves_indent (.display (.number ⟨1, 0⟩)) ⟨[], [], 0⟩
    none ⟨[], ["print(1.0)"], 0⟩ rfl⟩
